import Mathlib

/-!
Verification of the live-audio core of the Omnigen repository.

The subject is the "Live Conversation" subsystem implemented in
`src/components/AudioLab.tsx`: PCM encoding/decoding of audio frames,
gapless playback scheduling, interruption handling, and the session
lifecycle (`startLiveSession` / `stopLiveSession` / the transport
callbacks).  Audio samples and device-clock times are embedded as
rationals; machine side effects (opening and closing of external
resources, `source.start` / `source.stop` calls) are made explicit as
instrumentation fields of the embedded component state.
-/

namespace Omnigen

/-! ## PCM frame codec

`src/utils/audio.ts` (imported by `AudioLab.tsx` as `createPcmBlob`,
`decode`, `decodeAudioData`) is not present under `src/`, so the codec
is modelled from the specification text. -/

/-- Modelled from the spec: the PCM encoder of the missing
`src/utils/audio.ts` — "each sample is clamped to that range and
linearly scaled to a signed 16-bit integer (multiply by 32767, round
toward nearest, clamp to the representable range)". -/
def encodeSample (x : ℚ) : ℤ :=
  max (-32768) (min 32767 (round (max (-1 : ℚ) (min 1 x) * 32767)))

/-- Little-endian byte pair of a signed 16-bit value (two's complement). -/
def int16ToBytes (v : ℤ) : List ℕ :=
  [(v % 65536).toNat % 256, (v % 65536).toNat / 256]

/-- Modelled from the spec: the wire payload produced by `createPcmBlob`
of the missing `src/utils/audio.ts` — "an opaque encoded byte sequence
... raw little-endian 16-bit PCM". -/
def createPcmBlob : List ℚ → List ℕ
  | [] => []
  | x :: xs => int16ToBytes (encodeSample x) ++ createPcmBlob xs

/-- Recombine a little-endian byte pair into a signed 16-bit value. -/
def bytesToInt16 (lo hi : ℕ) : ℤ :=
  if lo + 256 * hi < 32768 then (lo + 256 * hi : ℤ) else (lo + 256 * hi : ℤ) - 65536

/-- Group a byte stream into little-endian pairs, dropping an odd
trailing byte. -/
def toPairs : List ℕ → List (ℕ × ℕ)
  | lo :: hi :: rest => (lo, hi) :: toPairs rest
  | _ => []

/-- Modelled from the spec: the PCM decoder `decodeAudioData` of the
missing `src/utils/audio.ts` — "raw 16-bit little-endian signed samples
... each sample divided by 32768"; an empty payload yields an empty
buffer and an odd trailing byte is dropped silently. -/
def decodeAudioData (bytes : List ℕ) : List ℚ :=
  (toPairs bytes).map fun p => (bytesToInt16 p.1 p.2 : ℚ) / 32768

theorem toPairs_length : ∀ bs : List ℕ, (toPairs bs).length = bs.length / 2
  | [] => rfl
  | [_] => by simp [toPairs]
  | _ :: _ :: rest => by
      simp only [toPairs, List.length_cons, toPairs_length rest]
      omega

theorem decodeAudioData_length (bs : List ℕ) :
    (decodeAudioData bs).length = bs.length / 2 := by
  simp [decodeAudioData, toPairs_length]

/-- The encoder output always lies in the signed 16-bit range. -/
theorem encodeSample_range (x : ℚ) :
    -32768 ≤ encodeSample x ∧ encodeSample x ≤ 32767 := by
  refine ⟨le_max_left _ _, ?_⟩
  exact max_le (by norm_num) (min_le_left _ _)

/-- Reading back the little-endian byte pair of an in-range value
recovers the value. -/
theorem bytesToInt16_int16ToBytes (v : ℤ) (h1 : -32768 ≤ v) (h2 : v ≤ 32767) :
    bytesToInt16 ((v % 65536).toNat % 256) ((v % 65536).toNat / 256) = v := by
  unfold bytesToInt16
  split <;> omega

/-- For an input already in `[-1, 1]` the clamps are inactive and the
encoder is exactly round-of-scale. -/
theorem encodeSample_eq_round (x : ℚ) (h1 : -1 ≤ x) (h2 : x ≤ 1) :
    encodeSample x = round (x * 32767) := by
  have hx : max (-1 : ℚ) (min 1 x) = x := by
    rw [min_eq_right h2, max_eq_right h1]
  have hup : round (x * 32767) ≤ 32767 := by
    rw [round_eq]
    have : ⌊x * 32767 + 1 / 2⌋ < 32768 := by
      rw [Int.floor_lt]
      push_cast
      nlinarith
    omega
  have hlo : -32768 ≤ round (x * 32767) := by
    rw [round_eq]
    have : (-32768 : ℤ) ≤ ⌊x * 32767 + 1 / 2⌋ := by
      rw [Int.le_floor]
      push_cast
      nlinarith
    exact this
  unfold encodeSample
  rw [hx, min_eq_right hup, max_eq_right hlo]

/-- Per-sample round-trip error bound: one quantization step of the
32768 scale plus half a rounding step of the 32767 scale. -/
theorem decode_encode_sample (x : ℚ) (h1 : -1 ≤ x) (h2 : x ≤ 1) :
    |(encodeSample x : ℚ) / 32768 - x| ≤ 3 / 65536 := by
  rw [encodeSample_eq_round x h1 h2]
  have hr : |x * 32767 - (round (x * 32767) : ℚ)| ≤ 1 / 2 := abs_sub_round _
  have hx : |x| ≤ 1 := abs_le.mpr ⟨h1, h2⟩
  have hdiff : ((round (x * 32767) : ℚ)) / 32768 - x
      = (((round (x * 32767) : ℚ)) - x * 32767 - x) / 32768 := by ring
  rw [hdiff, abs_div]
  have h65 : |(32768 : ℚ)| = 32768 := by norm_num
  rw [h65]
  rw [div_le_div_iff₀ (by norm_num) (by norm_num)]
  have habs : |((round (x * 32767) : ℚ)) - x * 32767 - x|
      ≤ |((round (x * 32767) : ℚ)) - x * 32767| + |x| := abs_sub _ _
  have hcomm : |((round (x * 32767) : ℚ)) - x * 32767| = |x * 32767 - (round (x * 32767) : ℚ)| :=
    abs_sub_comm _ _
  nlinarith [habs, hcomm ▸ habs]

theorem decode_createPcmBlob (xs : List ℚ) :
    decodeAudioData (createPcmBlob xs)
      = xs.map fun x => (encodeSample x : ℚ) / 32768 := by
  induction xs with
  | nil => rfl
  | cons x xs ih =>
    have he := encodeSample_range x
    have hb := bytesToInt16_int16ToBytes (encodeSample x) he.1 he.2
    simp only [createPcmBlob, int16ToBytes, List.cons_append, List.nil_append, List.map_cons]
    simp only [decodeAudioData, toPairs, List.map_cons] at ih ⊢
    rw [hb, ih]

/-- C7: the PCM decoder is total — an empty payload yields an empty
buffer (not an error) and a payload of 2n+1 bytes yields exactly n
samples, silently dropping the trailing byte. -/
theorem decoder_total (bs : List ℕ) (n : ℕ) :
    decodeAudioData [] = ([] : List ℚ) ∧
    (bs.length = 2 * n + 1 → (decodeAudioData bs).length = n) := by
  refine ⟨rfl, fun h => ?_⟩
  rw [decodeAudioData_length, h]
  omega

theorem decoder_total_witness : (decodeAudioData [7, 8, 9]).length = 1 :=
  (decoder_total [7, 8, 9] 1).2 (by decide)

/-- C6 counterexample: for the in-range input -163832/163835 the
encode→decode round trip misses by more than 1/32768 (the encoder
scales by 32767 but the decoder divides by 32768, adding up to |x|/32768
of scale mismatch on top of the rounding error). -/
theorem pcm_roundtrip_exceeds_bound :
    (-1 : ℚ) ≤ -163832 / 163835 ∧ (-163832 / 163835 : ℚ) ≤ 1 ∧
    decodeAudioData (createPcmBlob [-163832 / 163835]) = [-16383 / 16384] ∧
    ¬ |(-16383 / 16384 : ℚ) - -163832 / 163835| ≤ 1 / 32768 := by
  have henc : encodeSample (-163832 / 163835) = -32766 := by
    rw [encodeSample_eq_round _ (by norm_num) (by norm_num), round_eq]
    have harg : (-163832 / 163835 : ℚ) * 32767 + 1 / 2 = -327659 / 10 := by norm_num
    rw [harg, Int.floor_eq_iff]
    constructor <;> norm_num
  have hbytes : createPcmBlob [-163832 / 163835] = [2, 128] := by
    rw [createPcmBlob, henc, createPcmBlob, int16ToBytes]
    decide
  have hdec : decodeAudioData [2, 128] = [-16383 / 16384] := by
    have hb : bytesToInt16 2 128 = -32766 := by decide
    simp [decodeAudioData, toPairs, hb]
    norm_num
  refine ⟨by norm_num, by norm_num, by rw [hbytes, hdec], ?_⟩
  rw [abs_of_nonneg (by norm_num)]
  norm_num

/-- C6 (amended): for every sample buffer with values in [-1, 1],
decoding the payload produced by the PCM encoder yields a buffer of the
same length whose every sample differs from the corresponding original
sample by at most 3/65536 (= 1.5/32768). -/
theorem pcm_roundtrip (xs : List ℚ) (h : ∀ x ∈ xs, -1 ≤ x ∧ x ≤ 1) :
    (decodeAudioData (createPcmBlob xs)).length = xs.length ∧
    List.Forall₂ (fun y x => |y - x| ≤ 3 / 65536) (decodeAudioData (createPcmBlob xs)) xs := by
  rw [decode_createPcmBlob]
  refine ⟨by simp, ?_⟩
  revert h
  induction xs with
  | nil => intro h; simp
  | cons x xs ih =>
    intro h
    have hx := h x (List.mem_cons_self x xs)
    exact List.Forall₂.cons (decode_encode_sample x hx.1 hx.2)
      (ih fun y hy => h y (List.mem_cons_of_mem x hy))

theorem pcm_roundtrip_witness :
    (decodeAudioData (createPcmBlob [1 / 2])).length = [(1 : ℚ) / 2].length ∧
    List.Forall₂ (fun y x => |y - x| ≤ 3 / 65536)
      (decodeAudioData (createPcmBlob [1 / 2])) [1 / 2] :=
  pcm_roundtrip [1 / 2] (by
    intro x hx
    simp only [List.mem_singleton] at hx
    subst hx
    constructor <;> norm_num)

/-! ## Live-session component state

`AudioLab.tsx` lines 27-34 hold the session state in mutable refs.  The
embedding carries those refs (external handles are identified by
numeric ids drawn from `nextId`) plus an instrumentation of the host
environment: how many audio contexts, microphone streams and transport
handles are currently open, every `source.start(t)` call made on the
output context (paired with the buffer's duration), and every buffer id
passed to `stop()`. -/

structure LabState where
  session        : Option ℕ := none
  inputContext   : Option ℕ := none
  outputContext  : Option ℕ := none
  stream         : Option ℕ := none
  processor      : Option ℕ := none
  source         : Option ℕ := none
  nextStartTime  : ℚ := 0
  sources        : List ℕ := []
  liveConnected  : Bool := false
  logs           : List String := []
  openContexts   : ℕ := 0
  openStreams    : ℕ := 0
  openTransports : ℕ := 0
  startedBuffers : List (ℚ × ℚ) := []
  stoppedBuffers : List ℕ := []
  nextId         : ℕ := 0
deriving DecidableEq

/-- The release statements of `stopLiveSession`, in source order
(AudioLab.tsx lines 38-63). -/
inductive ReleaseStep
  | closeTransport
  | stopTracks
  | disconnectProcessor
  | disconnectSource
  | closeInputContext
  | closeOutputContext
  | stopBuffers
deriving DecidableEq

/-- Fault injection for teardown: which external release call throws
when it is made. -/
structure Faults where
  sessionClose        : Bool := false
  trackStop           : Bool := false
  processorDisconnect : Bool := false
  sourceDisconnect    : Bool := false
  inputClose          : Bool := false
  outputClose         : Bool := false
  bufferStop          : Bool := false
deriving DecidableEq

def noFaults : Faults := {}

/-- Run one guarded release statement of `stopLiveSession`: skipped
when its guard is false (the ref is null / the set is empty); when it
runs it either throws — aborting the remaining statements, as an
uncaught exception does in the source, which has no try/catch — or
performs its effect and continues.  Returns the final state, the trace
of release steps that executed, and whether the function ran to
completion. -/
def runStep (guard : LabState → Bool) (throws : Bool) (tag : ReleaseStep)
    (act : LabState → LabState) (rest : LabState → LabState × List ReleaseStep × Bool)
    (s : LabState) : LabState × List ReleaseStep × Bool :=
  if guard s then
    if throws then (s, [], false)
    else
      let r := rest (act s)
      (r.1, tag :: r.2.1, r.2.2)
  else rest s

/-- `stopLiveSession` (AudioLab.tsx lines 37-66) under fault injection:
close the transport, stop the stream's tracks, disconnect the processor
and the source node, close both audio contexts, stop and clear the
scheduled buffers, then mark the component disconnected and log. -/
def stopLiveSessionF (f : Faults) : LabState → LabState × List ReleaseStep × Bool :=
  runStep (fun s => s.session.isSome) f.sessionClose .closeTransport
    (fun s => { s with session := none, openTransports := s.openTransports - 1 }) <|
  runStep (fun s => s.stream.isSome) f.trackStop .stopTracks
    (fun s => { s with stream := none, openStreams := s.openStreams - 1 }) <|
  runStep (fun s => s.processor.isSome) f.processorDisconnect .disconnectProcessor
    (fun s => { s with processor := none }) <|
  runStep (fun s => s.source.isSome) f.sourceDisconnect .disconnectSource
    (fun s => { s with source := none }) <|
  runStep (fun s => s.inputContext.isSome) f.inputClose .closeInputContext
    (fun s => { s with inputContext := none, openContexts := s.openContexts - 1 }) <|
  runStep (fun s => s.outputContext.isSome) f.outputClose .closeOutputContext
    (fun s => { s with outputContext := none, openContexts := s.openContexts - 1 }) <|
  runStep (fun s => !s.sources.isEmpty) f.bufferStop .stopBuffers
    (fun s => { s with stoppedBuffers := s.stoppedBuffers ++ s.sources, sources := [] }) <|
  fun s => ({ s with liveConnected := false, logs := s.logs ++ ["Session ended."] }, [], true)

/-- The fault-free run of `stopLiveSession`. -/
def stopLiveSession (s : LabState) : LabState := (stopLiveSessionF noFaults s).1

/-- All session-held handles are null and the active playback set is
empty. -/
def Released (s : LabState) : Prop :=
  s.session = none ∧ s.stream = none ∧ s.processor = none ∧ s.source = none ∧
  s.inputContext = none ∧ s.outputContext = none ∧ s.sources = []

instance : DecidablePred Released := fun s => by
  unfold Released
  infer_instance

/-- A fault-free `stopLiveSession` always leaves every handle released
and the component marked disconnected. -/
theorem stop_clean (s : LabState) :
    Released (stopLiveSession s) ∧ (stopLiveSession s).liveConnected = false := by
  obtain ⟨ses, ic, oc, st, pr, so, nst, src, lc, lg, a, b, c, d, e, g⟩ := s
  cases ses <;> cases st <;> cases pr <;> cases so <;> cases ic <;> cases oc <;> cases src <;>
    simp [stopLiveSession, stopLiveSessionF, runStep, Released, noFaults]

/-- On a fully released state no guarded release statement runs, so the
teardown makes no external call and cannot throw, for any fault
injection. -/
theorem stop_of_released (s : LabState) (f : Faults) (h : Released s) :
    stopLiveSessionF f s
      = ({ s with liveConnected := false, logs := s.logs ++ ["Session ended."] }, [], true) := by
  obtain ⟨h1, h2, h3, h4, h5, h6, h7⟩ := h
  simp [stopLiveSessionF, runStep, h1, h2, h3, h4, h5, h6, h7]

/-- A live session holding every resource, used as the concrete state
for the teardown claims. -/
def fullSession : LabState :=
  { session := some 0, inputContext := some 1, outputContext := some 2, stream := some 3,
    processor := some 4, source := some 5, sources := [6], liveConnected := true,
    openContexts := 2, openStreams := 1, openTransports := 1, nextId := 7 }

/-- C3 counterexample: `stopLiveSession` has no try/catch, so when the
very first release step (closing the transport) throws, none of the
remaining steps executes — the microphone stream, the processing nodes,
both contexts and the scheduled buffers are all left untouched. -/
theorem teardown_aborts_on_throw :
    (stopLiveSessionF { sessionClose := true } fullSession).2.2 = false ∧
    (stopLiveSessionF { sessionClose := true } fullSession).2.1 = [] ∧
    (stopLiveSessionF { sessionClose := true } fullSession).1 = fullSession := by
  refine ⟨rfl, rfl, ?_⟩
  decide

/-- Every handle is currently held and the playback set is nonempty. -/
def FullyHeld (s : LabState) : Prop :=
  s.session.isSome = true ∧ s.stream.isSome = true ∧ s.processor.isSome = true ∧
  s.source.isSome = true ∧ s.inputContext.isSome = true ∧ s.outputContext.isSome = true ∧
  s.sources.isEmpty = false

/-- C3 (amended): teardown executes its release steps in the order
transport, capture tracks, processing nodes, contexts, scheduled
buffers; but the steps are not fault-isolated — if a step throws, the
remaining steps do not execute (shown here for a throw in the first
step, which leaves every other resource held). -/
theorem teardown_order (s : LabState) (f : Faults) (hs : FullyHeld s) :
    ((stopLiveSessionF noFaults s).2.1
        = [.closeTransport, .stopTracks, .disconnectProcessor, .disconnectSource,
           .closeInputContext, .closeOutputContext, .stopBuffers] ∧
     (stopLiveSessionF noFaults s).2.2 = true ∧
     Released (stopLiveSessionF noFaults s).1) ∧
    (f.sessionClose = true → stopLiveSessionF f s = (s, [], false)) := by
  obtain ⟨h1, h2, h3, h4, h5, h6, h7⟩ := hs
  constructor
  · refine ⟨?_, ?_, ?_⟩ <;>
      simp [stopLiveSessionF, runStep, noFaults, Released, h1, h2, h3, h4, h5, h6, h7]
  · intro hf
    simp [stopLiveSessionF, runStep, h1, hf]

theorem teardown_order_witness :
    ((stopLiveSessionF noFaults fullSession).2.1
        = [.closeTransport, .stopTracks, .disconnectProcessor, .disconnectSource,
           .closeInputContext, .closeOutputContext, .stopBuffers] ∧
     (stopLiveSessionF noFaults fullSession).2.2 = true ∧
     Released (stopLiveSessionF noFaults fullSession).1) ∧
    ({ sessionClose := true : Faults }.sessionClose = true →
      stopLiveSessionF { sessionClose := true } fullSession = (fullSession, [], false)) :=
  teardown_order fullSession { sessionClose := true }
    (by refine ⟨rfl, rfl, rfl, rfl, rfl, rfl, rfl⟩)

/-- Every component of the state except the log of UI messages: the
handles, the counts of open external resources, the playback cursor and
the device-call traces. -/
def resourceState (s : LabState) :=
  (s.session, s.inputContext, s.outputContext, s.stream, s.processor, s.source,
   s.sources, s.liveConnected, s.openContexts, s.openStreams, s.openTransports,
   s.nextStartTime, s.startedBuffers, s.stoppedBuffers, s.nextId)

/-- C5: stopping an already-stopped session raises no error (for any
fault injection: no guarded release call is even made) and leaves the
resource state identical to the state after the first stop — all
handles null, the playback set empty. -/
theorem stop_idempotent (s : LabState) (f : Faults) :
    (stopLiveSessionF f (stopLiveSession s)).2.2 = true ∧
    stopLiveSessionF f (stopLiveSession s) = stopLiveSessionF noFaults (stopLiveSession s) ∧
    resourceState (stopLiveSession (stopLiveSession s)) = resourceState (stopLiveSession s) ∧
    Released (stopLiveSession (stopLiveSession s)) ∧
    Released (stopLiveSession s) := by
  have h1 := (stop_clean s).1
  have hlc := (stop_clean s).2
  have he := stop_of_released (stopLiveSession s) f h1
  have he0 := stop_of_released (stopLiveSession s) noFaults h1
  refine ⟨by rw [he], by rw [he, he0], ?_, (stop_clean (stopLiveSession s)).1, h1⟩
  conv_lhs => rw [stopLiveSession, he0]
  simp [resourceState, hlc]

/-! ## Session start -/

/-- How far `startLiveSession` gets before its try block fails:
microphone permission denied at `getUserMedia`, the transport connect
promise rejected, or full success. -/
inductive StartOutcome
  | success
  | mediaDenied
  | transportRejected
deriving DecidableEq

/-- `startLiveSession` (AudioLab.tsx lines 72-165): log, create the
input and output audio contexts, acquire the microphone, open the
transport, store the session handle.  On a failure the catch block only
alerts and sets the connected flag false — nothing acquired before the
failing step is released, and no prior session is stopped first. -/
def startLiveSession (o : StartOutcome) (s : LabState) : LabState :=
  let s1 := { s with logs := s.logs ++ ["Connecting..."] }
  let s2 := { s1 with inputContext := some s1.nextId,
                      outputContext := some (s1.nextId + 1),
                      openContexts := s1.openContexts + 2,
                      nextId := s1.nextId + 2 }
  match o with
  | .mediaDenied => { s2 with liveConnected := false }
  | .transportRejected =>
      let s3 := { s2 with stream := some s2.nextId,
                          openStreams := s2.openStreams + 1,
                          nextId := s2.nextId + 1 }
      { s3 with liveConnected := false }
  | .success =>
      let s3 := { s2 with stream := some s2.nextId,
                          openStreams := s2.openStreams + 1,
                          nextId := s2.nextId + 1 }
      { s3 with session := some s3.nextId,
                openTransports := s3.openTransports + 1,
                nextId := s3.nextId + 1 }

/-- The `onopen` transport callback (AudioLab.tsx lines 90-110): log,
mark connected, and — when the input context and the stream are still
held — wire the capture pipeline (source node and script processor). -/
def onopen (s : LabState) : LabState :=
  let s1 := { s with logs := s.logs ++ ["Connected! Start speaking."], liveConnected := true }
  if s1.inputContext.isSome && s1.stream.isSome then
    { s1 with source := some s1.nextId,
              processor := some (s1.nextId + 1),
              nextId := s1.nextId + 2 }
  else s1

/-- The conditional rendering of the live tab (AudioLab.tsx lines
246-254): the start control is shown exactly when the component is not
connected. -/
def startButtonShown (s : LabState) : Bool := !s.liveConnected

/-- C4 counterexample: from the idle state (no open resources), a start
that fails at `getUserMedia` leaves both freshly created audio contexts
open, and a start whose transport connect is rejected additionally
leaves the microphone stream open — the catch block releases nothing. -/
theorem start_failure_leaks :
    (startLiveSession .mediaDenied {}).openContexts = 2 ∧
    (startLiveSession .mediaDenied {}).inputContext = some 0 ∧
    (startLiveSession .mediaDenied {}).outputContext = some 1 ∧
    (startLiveSession .transportRejected {}).openStreams = 1 := by
  refine ⟨rfl, rfl, rfl, rfl⟩

/-- C4 (amended): a failed start terminates as a failure — the session
never reaches Open (the connected flag is false and no transport handle
is stored or opened) — but the two audio contexts created before the
failing step remain open, and on a transport rejection the microphone
stream remains open as well; the component is back in the disconnected
state from which the start control is available again. -/
theorem start_failure_behavior (s : LabState) (o : StartOutcome) (h : o ≠ .success) :
    (startLiveSession o s).liveConnected = false ∧
    (startLiveSession o s).session = s.session ∧
    (startLiveSession o s).openTransports = s.openTransports ∧
    (startLiveSession o s).openContexts = s.openContexts + 2 ∧
    startButtonShown (startLiveSession o s) = true ∧
    (o = .mediaDenied →
      (startLiveSession o s).stream = s.stream ∧
      (startLiveSession o s).openStreams = s.openStreams) ∧
    (o = .transportRejected → (startLiveSession o s).openStreams = s.openStreams + 1) := by
  cases o with
  | success => exact absurd rfl h
  | mediaDenied => simp [startLiveSession, startButtonShown]
  | transportRejected => simp [startLiveSession, startButtonShown]

theorem start_failure_behavior_witness :
    (startLiveSession .mediaDenied {}).liveConnected = false ∧
    (startLiveSession .mediaDenied {}).session = ({} : LabState).session ∧
    (startLiveSession .mediaDenied {}).openTransports = ({} : LabState).openTransports ∧
    (startLiveSession .mediaDenied {}).openContexts = ({} : LabState).openContexts + 2 ∧
    startButtonShown (startLiveSession .mediaDenied {}) = true ∧
    (StartOutcome.mediaDenied = .mediaDenied →
      (startLiveSession .mediaDenied {}).stream = ({} : LabState).stream ∧
      (startLiveSession .mediaDenied {}).openStreams = ({} : LabState).openStreams) ∧
    (StartOutcome.mediaDenied = .transportRejected →
      (startLiveSession .mediaDenied {}).openStreams = ({} : LabState).openStreams + 1) :=
  start_failure_behavior {} .mediaDenied (by decide)

/-- The state reached by a successful start followed by the transport's
open callback: one transport, one stream and two contexts are open. -/
def sessionOpen : LabState := onopen (startLiveSession .success {})

/-- C8 counterexample: `startLiveSession` contains no stop-before-start.
Invoking it while a session is open (one open transport) acquires a new
transport without tearing the old one down, leaving two transports, two
streams and four contexts open — the claimed teardown-before-acquisition
does not happen. -/
theorem start_while_open_no_teardown :
    sessionOpen.openTransports = 1 ∧ sessionOpen.liveConnected = true ∧
    (startLiveSession .success sessionOpen).openTransports = 2 ∧
    (startLiveSession .success sessionOpen).openStreams = 2 ∧
    (startLiveSession .success sessionOpen).openContexts = 4 := by
  refine ⟨rfl, rfl, rfl, rfl, rfl⟩

/-- C8 (amended): the start path itself performs no teardown — a
successful start always adds one open transport, whatever was open
before.  At most one open session is ensured only by the UI, which
shows the start control exactly when the component is not connected;
from a fully closed state (no open transport) a successful start
yields exactly one open transport. -/
theorem single_session_ui (s : LabState) (h : s.openTransports = 0) :
    (startButtonShown s = true ↔ s.liveConnected = false) ∧
    (∀ s' : LabState, (startLiveSession .success s').openTransports = s'.openTransports + 1) ∧
    (startLiveSession .success s).openTransports = 1 := by
  refine ⟨?_, fun s' => rfl, ?_⟩
  · simp [startButtonShown]
  · simp [startLiveSession, h]

theorem single_session_ui_witness :
    (startButtonShown {} = true ↔ ({} : LabState).liveConnected = false) ∧
    (∀ s' : LabState, (startLiveSession .success s').openTransports = s'.openTransports + 1) ∧
    (startLiveSession .success {}).openTransports = 1 :=
  single_session_ui {} rfl

/-! ## Inbound transport messages -/

/-- An `onmessage` event: it may carry an inline audio payload (the
base64-decoded bytes) and/or the interruption flag
(`msg.serverContent.interrupted`). -/
structure ServerMessage where
  audioData   : Option (List ℕ) := none
  interrupted : Bool := false

/-- The audio branch of `onmessage` (AudioLab.tsx lines 112-133), which
runs only when a payload is present and the output context is held:
clamp the cursor to the clock (`nextStartTime := max nextStartTime
now`), decode the payload into a buffer of duration samples/24000,
start it at the cursor, advance the cursor by the duration and register
the source in the active set. -/
def scheduleAudio (now : ℚ) (bytes : List ℕ) (s : LabState) : LabState :=
  match s.outputContext with
  | none => s
  | some _ =>
      let t := max s.nextStartTime now
      let duration : ℚ := ((decodeAudioData bytes).length : ℚ) / 24000
      { s with nextStartTime := t + duration,
               startedBuffers := s.startedBuffers ++ [(t, duration)],
               sources := s.sources ++ [s.nextId],
               nextId := s.nextId + 1 }

/-- The interruption branch of `onmessage` (AudioLab.tsx lines
135-140): log, stop every active source, clear the active set and reset
the cursor to 0. -/
def handleInterrupt (s : LabState) : LabState :=
  { s with logs := s.logs ++ ["Interrupted."],
           stoppedBuffers := s.stoppedBuffers ++ s.sources,
           sources := [],
           nextStartTime := 0 }

/-- The `onmessage` callback (AudioLab.tsx lines 111-141): schedule the
inline audio payload if one is present, then handle the interruption
flag if it is set. -/
def onmessage (now : ℚ) (msg : ServerMessage) (s : LabState) : LabState :=
  let s1 := match msg.audioData with
    | some bytes => scheduleAudio now bytes s
    | none => s
  if msg.interrupted then handleInterrupt s1 else s1

/-- Deliver a sequence of audio-carrying messages in order; each event
is a pair of the output clock's current time at delivery and the
payload bytes. -/
def deliverAll (evs : List (ℚ × List ℕ)) (s : LabState) : LabState :=
  evs.foldl (fun s e => onmessage e.1 { audioData := some e.2 } s) s

/-- Scheduled buffers do not overlap and start in order: the later one
starts no earlier than the earlier one's start plus its duration. -/
def BufferOrdered (p q : ℚ × ℚ) : Prop := p.1 + p.2 ≤ q.1 ∧ p.1 ≤ q.1

/-- Scheduling invariant: every scheduled buffer ends no later than the
cursor, durations are nonnegative, and the schedule is pairwise
ordered. -/
def SchedInv (s : LabState) : Prop :=
  (∀ p ∈ s.startedBuffers, p.1 + p.2 ≤ s.nextStartTime ∧ 0 ≤ p.2) ∧
  List.Pairwise BufferOrdered s.startedBuffers

theorem schedInv_scheduleAudio (now : ℚ) (bytes : List ℕ) (s : LabState)
    (h : SchedInv s) : SchedInv (scheduleAudio now bytes s) := by
  obtain ⟨hb, hp⟩ := h
  unfold scheduleAudio
  cases hoc : s.outputContext with
  | none => exact ⟨hb, hp⟩
  | some c =>
    have hd : (0 : ℚ) ≤ ((decodeAudioData bytes).length : ℚ) / 24000 := by positivity
    have ht : s.nextStartTime ≤ max s.nextStartTime now := le_max_left _ _
    constructor
    · intro p hpmem
      simp only [List.mem_append, List.mem_singleton] at hpmem
      rcases hpmem with hmem | rfl
      · have := hb p hmem
        exact ⟨by linarith [this.1], this.2⟩
      · exact ⟨le_refl _, hd⟩
    · rw [List.pairwise_append]
      refine ⟨hp, List.pairwise_singleton _ _, ?_⟩
      intro p hmem q hq
      simp only [List.mem_singleton] at hq
      subst hq
      have h1 := (hb p hmem).1
      have h2 := (hb p hmem).2
      exact ⟨le_trans h1 ht, le_trans (by linarith) ht⟩

theorem schedInv_deliverAll (evs : List (ℚ × List ℕ)) (s : LabState)
    (h : SchedInv s) : SchedInv (deliverAll evs s) := by
  induction evs generalizing s with
  | nil => exact h
  | cons e evs ih =>
    refine ih _ ?_
    show SchedInv (onmessage e.1 { audioData := some e.2 } s)
    simpa [onmessage] using schedInv_scheduleAudio e.1 e.2 s h

/-- C1: on each delivered buffer the scheduler starts it at
`max nextStartTime now` and advances the cursor by the buffer's
duration; consequently, over any sequence of buffers delivered in order,
the scheduled start times are non-decreasing and each start is at least
the predecessor's start plus the predecessor's duration. -/
theorem scheduler_ordering :
    (∀ (now : ℚ) (bytes : List ℕ) (s : LabState), s.outputContext.isSome = true →
      (onmessage now { audioData := some bytes } s).startedBuffers
          = s.startedBuffers
            ++ [(max s.nextStartTime now, ((decodeAudioData bytes).length : ℚ) / 24000)] ∧
      (onmessage now { audioData := some bytes } s).nextStartTime
          = max s.nextStartTime now + ((decodeAudioData bytes).length : ℚ) / 24000) ∧
    (∀ (evs : List (ℚ × List ℕ)) (s : LabState), SchedInv s →
      List.Pairwise BufferOrdered (deliverAll evs s).startedBuffers ∧
      SchedInv (deliverAll evs s)) := by
  constructor
  · intro now bytes s hoc
    rw [Option.isSome_iff_exists] at hoc
    obtain ⟨c, hc⟩ := hoc
    constructor <;> simp [onmessage, scheduleAudio, hc]
  · intro evs s h
    exact ⟨(schedInv_deliverAll evs s h).2, schedInv_deliverAll evs s h⟩

theorem scheduler_ordering_witness :
    ((onmessage 0 { audioData := some [1, 2] } { outputContext := some 0 }).startedBuffers
        = ({ outputContext := some 0 } : LabState).startedBuffers
          ++ [(max ({ outputContext := some 0 } : LabState).nextStartTime 0,
               ((decodeAudioData [1, 2]).length : ℚ) / 24000)] ∧
      (onmessage 0 { audioData := some [1, 2] } { outputContext := some 0 }).nextStartTime
        = max ({ outputContext := some 0 } : LabState).nextStartTime 0
          + ((decodeAudioData [1, 2]).length : ℚ) / 24000) ∧
    List.Pairwise BufferOrdered
      (deliverAll [(0, [1, 2]), (1, [3, 4])] { outputContext := some 0 }).startedBuffers :=
  ⟨(scheduler_ordering.1 0 [1, 2] { outputContext := some 0 } rfl),
   (scheduler_ordering.2 [(0, [1, 2]), (1, [3, 4])] { outputContext := some 0 }
      (by constructor <;> simp)).1⟩

/-- C2 counterexample: an interruption arriving while the output clock
reads 5 resets the cursor to 0, not to the clock's current time — the
code executes `nextStartTimeRef.current = 0`, not
`= ctx.currentTime`. -/
theorem interruption_resets_cursor_to_zero :
    (onmessage 5 { interrupted := true }
        { nextStartTime := 3, sources := [7], outputContext := some 0 }).nextStartTime = 0 ∧
    (0 : ℚ) ≠ 5 := ⟨rfl, by norm_num⟩

/-- C2 (amended): after an interruption every active scheduled buffer
has been stopped, the active set is empty, and the cursor is reset to 0
(not to the clock's current time); because scheduling takes
`max nextStartTime now`, the next buffer delivered afterwards — at a
clock reading that is nonnegative and at or after the interruption
time — is still scheduled to start at that reading, hence at or after
the interruption time, never before it. -/
theorem interruption_contract (s : LabState) (tI now2 : ℚ) (bytes : List ℕ)
    (hout : s.outputContext.isSome = true) (h0 : 0 ≤ now2) (hle : tI ≤ now2) :
    ((onmessage tI { interrupted := true } s).sources = [] ∧
     (onmessage tI { interrupted := true } s).stoppedBuffers = s.stoppedBuffers ++ s.sources ∧
     (onmessage tI { interrupted := true } s).nextStartTime = 0) ∧
    ((onmessage now2 { audioData := some bytes }
          (onmessage tI { interrupted := true } s)).startedBuffers
        = (onmessage tI { interrupted := true } s).startedBuffers
          ++ [(now2, ((decodeAudioData bytes).length : ℚ) / 24000)] ∧
     tI ≤ now2) := by
  rw [Option.isSome_iff_exists] at hout
  obtain ⟨c, hc⟩ := hout
  refine ⟨by simp [onmessage, handleInterrupt], ?_, hle⟩
  simp [onmessage, handleInterrupt, scheduleAudio, hc, max_eq_right h0]

theorem interruption_contract_witness :
    ((onmessage 2 { interrupted := true } fullSession).sources = [] ∧
     (onmessage 2 { interrupted := true } fullSession).stoppedBuffers
        = fullSession.stoppedBuffers ++ fullSession.sources ∧
     (onmessage 2 { interrupted := true } fullSession).nextStartTime = 0) ∧
    ((onmessage 5 { audioData := some [1, 2] }
          (onmessage 2 { interrupted := true } fullSession)).startedBuffers
        = (onmessage 2 { interrupted := true } fullSession).startedBuffers
          ++ [(5, ((decodeAudioData [1, 2]).length : ℚ) / 24000)] ∧
     (2 : ℚ) ≤ 5) :=
  interruption_contract fullSession 2 5 [1, 2] rfl (by norm_num) (by norm_num)

/-- C9: processing an interruption event touches only the playback
state (active set, cursor, stop-call trace, log): the transport handle,
the microphone stream, the processing nodes, both contexts, the
connected flag and every open-resource count are unchanged — the
session is not closed. -/
theorem interruption_frame (now : ℚ) (s : LabState) :
    (onmessage now { interrupted := true } s).session = s.session ∧
    (onmessage now { interrupted := true } s).stream = s.stream ∧
    (onmessage now { interrupted := true } s).processor = s.processor ∧
    (onmessage now { interrupted := true } s).source = s.source ∧
    (onmessage now { interrupted := true } s).inputContext = s.inputContext ∧
    (onmessage now { interrupted := true } s).outputContext = s.outputContext ∧
    (onmessage now { interrupted := true } s).liveConnected = s.liveConnected ∧
    (onmessage now { interrupted := true } s).openContexts = s.openContexts ∧
    (onmessage now { interrupted := true } s).openStreams = s.openStreams ∧
    (onmessage now { interrupted := true } s).openTransports = s.openTransports ∧
    (onmessage now { interrupted := true } s).startedBuffers = s.startedBuffers := by
  refine ⟨rfl, rfl, rfl, rfl, rfl, rfl, rfl, rfl, rfl, rfl, rfl⟩

/-- C10: a message carrying neither an inline audio payload nor the
interruption flag leaves the entire state unchanged — nothing is
scheduled, stopped or modified, and no error is raised. -/
theorem message_without_audio_or_interrupt_noop (now : ℚ) (s : LabState) :
    onmessage now { audioData := none, interrupted := false } s = s := rfl
